import Mathlib

/-!
Verification development for the expectation-dispatch module of GPflow
(gpflow/expectations/misc.py).

The seven handlers of misc.py are embedded faithfully from the source as
pure functions over rational tensors represented as nested lists.  The
multiple-dispatch registry, the runtime type hierarchy and the facade are
not part of the analysed source file (they live in other modules of the
repository), so they are modelled from the specification: a pattern is a
single type, a finite set of types, or a wildcard; a signature matches a
concrete 5-tuple of runtime types slot by slot; among all matching
signatures the unique most specific one (wildcard < type-set < single
type, subclass more specific than superclass) selects the handler.
Kernel-specific leaf formulas (registered in other modules with higher
specificity, e.g. the Linear-kernel rules of linears.py) are modelled as
abstract functions collected in a `Leaves` record.  Recursion through the
facade is made explicit with a fuel parameter.
-/

namespace GPF

abbrev Vec := List ℤ
abbrev Mat := List Vec
abbrev T3 := List Mat

/-- dot product of two vectors (tensor-backend primitive).  Scalars are
modelled as integers: the analysed handlers use only ring operations
(addition and multiplication), so the claims are structural identities
over an arbitrary carrier ring and exact integer arithmetic keeps every
definition evaluable on closed inputs. -/
def dot (u v : Vec) : ℤ := (List.zipWith (fun a b => a * b) u v).sum

/-- transpose of a rectangular matrix; models the tensor backend's adjoint
over the last two axes restricted to real (rational) entries. -/
def transposeMat (m : Mat) : Mat :=
  (List.range (m.headD []).length).map (fun j => m.map (fun row => row.getD j 0))

/-- matrix product (tensor-backend primitive tf.linalg.matmul). -/
def matmul (a b : Mat) : Mat :=
  a.map (fun row => (transposeMat b).map (fun col => dot row col))

/-- embed a vector as a diagonal matrix (one batch row of tf.linalg.diag). -/
def diagEmbed (v : Vec) : Mat :=
  (List.range v.length).map
    (fun i => (List.range v.length).map (fun j => if i = j then v.getD i 0 else 0))

/-- a tensor value returned by an expectation handler: rank 2 (NxM) or
rank 3 (NxQxM and friends). -/
inductive Tensor where
  | r2 (m : Mat)
  | r3 (t : T3)
deriving DecidableEq

/-- adjoint over the last two axes (tf.linalg.adjoint on real data). -/
def adjointT : Tensor → Tensor
  | .r2 m => .r2 (transposeMat m)
  | .r3 t => .r3 (t.map transposeMat)

/-- broadcastized product realizing c[..., None] * e[:, None, :] of the
Constant-mean handler: result[n][q][m] = c[n][q] * e[n][m]. -/
def outerRows (c e : Mat) : T3 :=
  List.zipWith (fun crow erow => crow.map (fun cq => erow.map (fun em => cq * em))) c e

/-- broadcastized product realizing b[None, :, None] * e[:, None, :] of the
Linear-mean handler: result[n][q][m] = b[q] * e[n][m]. -/
def bScale (b : Vec) (e : Mat) : T3 :=
  e.map (fun erow => b.map (fun bq => erow.map (fun em => bq * em)))

/-- elementwise sum of two rank-3 tensors. -/
def addT3 (x y : T3) : T3 :=
  List.zipWith (List.zipWith (List.zipWith (fun a b => a + b))) x y

/-- kernels appearing in the registered signatures: the Linear kernel and a
generic kernel that has no kernel-specific rule of its own. -/
inductive Kern where
  | linearK
  | genericK
deriving DecidableEq

/-- mean functions of gpflow.mean_functions used by the handlers. -/
inductive MeanF where
  | identity (d : ℕ)
  | constant (c : Vec)
  | linear (A : Mat) (b : Vec)
deriving DecidableEq

/-- inducing features; InducingPoints carries the matrix Z (MxD). -/
inductive Feat where
  | inducingPoints (Z : Mat)
deriving DecidableEq

/-- an operand object of the facade: a kernel or a mean function. -/
inductive Obj where
  | kern (k : Kern)
  | mean (m : MeanF)
deriving DecidableEq

/-- input distributions of gpflow.probability_distributions: Gaussian
(mean NxD, covariance NxDxD), DiagonalGaussian (mean NxD, diagonal
variances NxD), MarkovGaussian (mean over N+1 steps, covariance 2 blocks
of (N+1)xDxD, first slot the same-time-step block). -/
inductive Dist where
  | gaussian (mu : Mat) (cov : T3)
  | diagGaussian (mu : Mat) (cov : Mat)
  | markovGaussian (mu : Mat) (cov : List T3)
deriving DecidableEq

/-- the mu attribute shared by all three distribution classes. -/
def Dist.mu : Dist → Mat
  | .gaussian mu _ => mu
  | .diagGaussian mu _ => mu
  | .markovGaussian mu _ => mu

/-- Modelled from the spec: runtime type tags for the class hierarchy used
by the dispatcher (the kernel, mean-function, feature and distribution
classes live outside the analysed source file). -/
inductive Ty where
  | tGaussian
  | tDiagonalGaussian
  | tMarkovGaussian
  | tMeanFunction
  | tLinearMean
  | tIdentityMean
  | tConstantMean
  | tKernel
  | tLinearKernel
  | tGenericKernel
  | tInducingFeature
  | tInducingPoints
  | tNone
deriving DecidableEq, Fintype

/-- Modelled from the spec: the ancestors (including itself) of each
runtime type; Identity is a specialization of the Linear mean function and
InducingPoints of InducingFeature. -/
def Ty.supers : Ty → List Ty
  | .tGaussian => [.tGaussian]
  | .tDiagonalGaussian => [.tDiagonalGaussian]
  | .tMarkovGaussian => [.tMarkovGaussian]
  | .tMeanFunction => [.tMeanFunction]
  | .tLinearMean => [.tLinearMean, .tMeanFunction]
  | .tIdentityMean => [.tIdentityMean, .tLinearMean, .tMeanFunction]
  | .tConstantMean => [.tConstantMean, .tMeanFunction]
  | .tKernel => [.tKernel]
  | .tLinearKernel => [.tLinearKernel, .tKernel]
  | .tGenericKernel => [.tGenericKernel, .tKernel]
  | .tInducingFeature => [.tInducingFeature]
  | .tInducingPoints => [.tInducingPoints, .tInducingFeature]
  | .tNone => [.tNone]

/-- Modelled from the spec: subtype test (exact or proper ancestor). -/
def isSubtype (a b : Ty) : Bool := b ∈ a.supers

/-- Modelled from the spec: a pattern entry of a registered signature is a
single type, a finite set of candidate types, or the universal wildcard
(the Python registrations use the type object as the wildcard). -/
inductive Pat where
  | single (t : Ty)
  | anyOf (ts : List Ty)
  | wildcard
deriving DecidableEq

/-- Modelled from the spec: whether a concrete runtime type matches a
pattern entry; the wildcard matches everything including the none marker,
a single type matches by subtyping, a set matches if any member does. -/
def patMatches : Pat → Ty → Bool
  | .wildcard, _ => true
  | .single t, c => isSubtype c t
  | .anyOf ts, c => ts.any (fun t => isSubtype c t)

/-- a registered 5-slot signature of the dispatcher. -/
structure Sig where
  d : Pat
  o1 : Pat
  f1 : Pat
  o2 : Pat
  f2 : Pat
deriving DecidableEq

/-- a concrete runtime 5-tuple of types built by the facade. -/
structure TyTup where
  d : Ty
  o1 : Ty
  f1 : Ty
  o2 : Ty
  f2 : Ty
deriving DecidableEq

/-- Modelled from the spec: a signature matches a concrete tuple iff all
five slots match. -/
def sigMatches (s : Sig) (t : TyTup) : Bool :=
  patMatches s.d t.d && patMatches s.o1 t.o1 && patMatches s.f1 t.f1 &&
    patMatches s.o2 t.o2 && patMatches s.f2 t.f2

/-- Modelled from the spec: slot specificity order, wildcard < type-set <
single type, and among single types a subclass is at least as specific as
a superclass; among sets a subset is at least as specific. -/
def patGE : Pat → Pat → Bool
  | _, .wildcard => true
  | .wildcard, _ => false
  | .single t, .single u => isSubtype t u
  | .single _, .anyOf _ => true
  | .anyOf _, .single _ => false
  | .anyOf ts, .anyOf us => ts.all (fun t => t ∈ us)

/-- Modelled from the spec: signature a is slotwise never less specific
than signature b. -/
def sigGE (a b : Sig) : Bool :=
  patGE a.d b.d && patGE a.o1 b.o1 && patGE a.f1 b.f1 &&
    patGE a.o2 b.o2 && patGE a.f2 b.f2

/-- Modelled from the spec: strictly more specific signatures are never
less specific slotwise and strictly more specific somewhere. -/
def sigMoreSpecific (a b : Sig) : Bool := sigGE a b && !(sigGE b a)

/-- handler identities: the seven handlers of misc.py plus the modelled
kernel-specific leaf rules registered in other modules of the repository. -/
inductive HId where
  | hIdentLinearTranspose
  | hKernMeanTranspose
  | hConstKern
  | hLinearMeanKern
  | hIdentityGuard
  | hDiagConv
  | hMarkovConv
  | hLeafGaussLinKxzId
  | hLeafMarkovLinKxzId
  | hLeafGaussLinKxz
deriving DecidableEq

/-- the registered (signature, handler) pairs: the first nine transcribe
the decorator registrations of misc.py in source order; the last three are
modelled from the spec, which states that kernel-specific handlers with
higher specificity exist elsewhere and are the intended path (the
Linear-kernel rules of linears.py). -/
def registry : List (Sig × HId) :=
  [(⟨.single .tMarkovGaussian, .single .tIdentityMean, .single .tNone,
      .single .tLinearKernel, .single .tInducingPoints⟩, .hIdentLinearTranspose),
   (⟨.single .tGaussian, .single .tIdentityMean, .single .tNone,
      .single .tLinearKernel, .single .tInducingPoints⟩, .hIdentLinearTranspose),
   (⟨.single .tMarkovGaussian, .single .tKernel, .single .tInducingFeature,
      .single .tMeanFunction, .single .tNone⟩, .hKernMeanTranspose),
   (⟨.single .tGaussian, .single .tKernel, .single .tInducingFeature,
      .single .tMeanFunction, .single .tNone⟩, .hKernMeanTranspose),
   (⟨.single .tGaussian, .single .tConstantMean, .single .tNone,
      .single .tKernel, .single .tInducingPoints⟩, .hConstKern),
   (⟨.single .tGaussian, .single .tLinearMean, .single .tNone,
      .single .tKernel, .single .tInducingPoints⟩, .hLinearMeanKern),
   (⟨.single .tGaussian, .single .tIdentityMean, .single .tNone,
      .single .tKernel, .single .tInducingPoints⟩, .hIdentityGuard),
   (⟨.single .tDiagonalGaussian, .wildcard, .anyOf [.tInducingFeature, .tNone],
      .wildcard, .anyOf [.tInducingFeature, .tNone]⟩, .hDiagConv),
   (⟨.single .tMarkovGaussian, .wildcard, .anyOf [.tInducingFeature, .tNone],
      .wildcard, .anyOf [.tInducingFeature, .tNone]⟩, .hMarkovConv),
   (⟨.single .tGaussian, .single .tLinearKernel, .single .tInducingPoints,
      .single .tIdentityMean, .single .tNone⟩, .hLeafGaussLinKxzId),
   (⟨.single .tMarkovGaussian, .single .tLinearKernel, .single .tInducingPoints,
      .single .tIdentityMean, .single .tNone⟩, .hLeafMarkovLinKxzId),
   (⟨.single .tGaussian, .single .tLinearKernel, .single .tInducingPoints,
      .single .tNone, .single .tNone⟩, .hLeafGaussLinKxz)]

/-- errors surfaced by the dispatcher or by a handler. -/
inductive Err where
  | lookupFailed
  | ambiguous
  | notImplemented
  | outOfFuel
  | shapeErr
  | dispatchMismatch
deriving DecidableEq

/-- Modelled from the spec: resolution collects every matching signature
and picks the unique most specific one; zero matches is a lookup failure,
no unique winner an ambiguity error. -/
def resolve (t : TyTup) : Except Err HId :=
  match registry.filter (fun e => sigMatches e.1 t) with
  | [] => .error .lookupFailed
  | cand =>
    match cand.filter
        (fun e => cand.all (fun e2 => decide (e.1 = e2.1) || sigMoreSpecific e.1 e2.1)) with
    | [b] => .ok b.2
    | _ => .error .ambiguous

/-- runtime type of an operand object. -/
def objTy : Obj → Ty
  | .kern .linearK => .tLinearKernel
  | .kern .genericK => .tGenericKernel
  | .mean (.identity _) => .tIdentityMean
  | .mean (.constant _) => .tConstantMean
  | .mean (.linear _ _) => .tLinearMean

/-- runtime type of a distribution. -/
def Dist.ty : Dist → Ty
  | .gaussian _ _ => .tGaussian
  | .diagGaussian _ _ => .tDiagonalGaussian
  | .markovGaussian _ _ => .tMarkovGaussian

/-- runtime type of an optional operand (the none marker when absent). -/
def optObjTy : Option Obj → Ty
  | none => .tNone
  | some o => objTy o

/-- runtime type of an optional feature. -/
def optFeatTy : Option Feat → Ty
  | none => .tNone
  | some (.inducingPoints _) => .tInducingPoints

/-- the concrete runtime 5-tuple the facade dispatches on. -/
def tupOf (p : Dist) (o1 : Option Obj) (f1 : Option Feat)
    (o2 : Option Obj) (f2 : Option Feat) : TyTup :=
  ⟨p.ty, optObjTy o1, optFeatTy f1, optObjTy o2, optFeatTy f2⟩

/-- Modelled from the spec: the kernel-specific closed-form leaf formulas
(for the Linear kernel) registered in other modules of the repository;
their numeric content is outside the analysed file, so they are abstract
parameters of the development. -/
structure Leaves where
  gaussLinKxzId : Mat → T3 → Mat → Option ℕ → Tensor
  markovLinKxzId : Mat → List T3 → Mat → Option ℕ → Tensor
  gaussLinKxz : Mat → T3 → Mat → Option ℕ → Tensor

abbrev Res := Except Err Tensor

/-- one dispatch step: runs the selected handler, where delegate is the
facade used for the recursive calls a handler makes.  The bodies of the
first seven cases transcribe the handlers of misc.py; tensors are assumed
rectangular (as tf tensors are), rank mismatches surface as shape errors
exactly where the Python code would fail in the tensor backend, and a
handler invoked on payloads its registered signature excludes answers a
dispatch-mismatch error (unreachable through resolution). -/
def runHandler (lv : Leaves)
    (delegate : Dist → Option Obj → Option Feat → Option Obj → Option Feat → Option ℕ → Res) :
    HId → Dist → Option Obj → Option Feat → Option Obj → Option Feat → Option ℕ → Res
  | .hIdentLinearTranspose, p, o1, _f1, o2, f2, _n =>
    match delegate p o2 f2 o1 none none with
    | .error e => .error e
    | .ok t => .ok (adjointT t)
  | .hKernMeanTranspose, p, o1, f1, o2, _f2, n =>
    match delegate p o2 none o1 f1 n with
    | .error e => .error e
    | .ok t => .ok (adjointT t)
  | .hConstKern, p, o1, _f1, o2, f2, n =>
    match o1 with
    | some (.mean (.constant c)) =>
      match delegate p o2 f2 none none n with
      | .error e => .error e
      | .ok (.r2 e) => .ok (.r3 (outerRows (p.mu.map (fun _ => c)) e))
      | .ok _ => .error .shapeErr
    | _ => .error .dispatchMismatch
  | .hLinearMeanKern, p, o1, _f1, o2, f2, n =>
    match o1 with
    | some (.mean (.linear A b)) =>
      match delegate p (some (.mean (.identity (p.mu.headD []).length))) none o2 f2 n with
      | .error e => .error e
      | .ok (.r3 x) =>
        match delegate p o2 f2 none none n with
        | .error e => .error e
        | .ok (.r2 e) =>
          .ok (.r3 (addT3 (x.map (fun xn => matmul (transposeMat A) xn)) (bScale b e)))
        | .ok _ => .error .shapeErr
      | .ok _ => .error .shapeErr
    | _ => .error .dispatchMismatch
  | .hIdentityGuard, _, _, _, _, _, _ => .error .notImplemented
  | .hDiagConv, p, o1, f1, o2, f2, n =>
    match p with
    | .diagGaussian mu v => delegate (.gaussian mu (v.map diagEmbed)) o1 f1 o2 f2 n
    | _ => .error .dispatchMismatch
  | .hMarkovConv, p, o1, f1, o2, f2, n =>
    match p with
    | .markovGaussian mu cov =>
      match o2 with
      | none => delegate (.gaussian mu.dropLast ((cov.headD []).dropLast)) o1 f1 none none n
      | some _ =>
        match o1 with
        | none => delegate (.gaussian mu.tail ((cov.headD []).tail)) o2 f2 none none n
        | some _ => delegate p o1 f1 o2 f2 n
    | _ => .error .dispatchMismatch
  | .hLeafGaussLinKxzId, p, _o1, f1, _o2, _f2, n =>
    match p, f1 with
    | .gaussian mu cov, some (.inducingPoints Z) => .ok (lv.gaussLinKxzId mu cov Z n)
    | _, _ => .error .dispatchMismatch
  | .hLeafMarkovLinKxzId, p, _o1, f1, _o2, _f2, n =>
    match p, f1 with
    | .markovGaussian mu cov, some (.inducingPoints Z) => .ok (lv.markovLinKxzId mu cov Z n)
    | _, _ => .error .dispatchMismatch
  | .hLeafGaussLinKxz, p, _o1, f1, _o2, _f2, n =>
    match p, f1 with
    | .gaussian mu cov, some (.inducingPoints Z) => .ok (lv.gaussLinKxz mu cov Z n)
    | _, _ => .error .dispatchMismatch

/-- the expectation facade: builds the concrete runtime 5-tuple, resolves
the handler and invokes it; recursion through handler delegation is made
explicit with a fuel parameter (the Python call stack). -/
def expectationE (lv : Leaves) :
    ℕ → Dist → Option Obj → Option Feat → Option Obj → Option Feat → Option ℕ → Res
  | 0, _, _, _, _, _, _ => .error .outOfFuel
  | fuel + 1, p, o1, f1, o2, f2, n =>
    match resolve (tupOf p o1 f1 o2 f2) with
    | .error e => .error e
    | .ok h =>
      runHandler lv (fun q a b c d m => expectationE lv fuel q a b c d m) h p o1 f1 o2 f2 n

/-- a concrete instance of the abstract leaf formulas, used to evaluate
the development on closed inputs; its numeric content is arbitrary. -/
def probeLeaves : Leaves where
  gaussLinKxzId := fun mu _cov Z _n => .r3 (mu.map (fun xrow => Z.map (fun _ => xrow)))
  markovLinKxzId := fun mu _cov Z _n => .r3 (mu.dropLast.map (fun xrow => Z.map (fun _ => xrow)))
  gaussLinKxz := fun mu _cov Z _n => .r2 (mu.map (fun xrow => Z.map (fun zrow => dot xrow zrow)))

/-- decidable equality of handler results, used to evaluate the
development on closed inputs. -/
instance exceptDecEq {ε α : Type} [DecidableEq ε] [DecidableEq α] :
    DecidableEq (Except ε α) := fun a b =>
  match a, b with
  | .error e1, .error e2 =>
    if h : e1 = e2 then isTrue (by rw [h]) else isFalse (fun hh => h (Except.error.inj hh))
  | .ok a1, .ok a2 =>
    if h : a1 = a2 then isTrue (by rw [h]) else isFalse (fun hh => h (Except.ok.inj hh))
  | .error _, .ok _ => isFalse (fun hh => Except.noConfusion hh)
  | .ok _, .error _ => isFalse (fun hh => Except.noConfusion hh)

/-- rectangularity check: m is an r-by-c matrix. -/
def shape2b (m : Mat) (r c : ℕ) : Bool :=
  m.length == r && m.all (fun row => row.length == c)

/-- rectangularity check: t is an a-by-b-by-c tensor. -/
def shape3b (t : T3) (a b c : ℕ) : Bool :=
  t.length == a && t.all (fun m => shape2b m b c)

theorem shape2b_iff {m : Mat} {r c : ℕ} :
    shape2b m r c = true ↔ m.length = r ∧ ∀ row ∈ m, row.length = c := by
  simp [shape2b, List.all_eq_true]

theorem shape3b_iff {t : T3} {a b c : ℕ} :
    shape3b t a b c = true ↔ t.length = a ∧ ∀ m ∈ t, shape2b m b c = true := by
  simp [shape3b, List.all_eq_true]

theorem headD_length_of_shape2b {m : Mat} {r c : ℕ}
    (h : shape2b m r c = true) (hr : 0 < r) : (m.headD []).length = c := by
  rw [shape2b_iff] at h
  obtain ⟨hlen, hrows⟩ := h
  cases m with
  | nil => simp at hlen; omega
  | cons a l => exact hrows a (List.mem_cons_self a l)

theorem length_transposeMat (m : Mat) : (transposeMat m).length = (m.headD []).length := by
  simp [transposeMat]

theorem shape2b_transposeMat (m : Mat) (r c : ℕ)
    (hr : 0 < r) (h : shape2b m r c = true) : shape2b (transposeMat m) c r = true := by
  have hhd : (m.headD []).length = c := headD_length_of_shape2b h hr
  rw [shape2b_iff] at h ⊢
  obtain ⟨hlen, _⟩ := h
  constructor
  · rw [length_transposeMat, hhd]
  · intro row hrow
    simp only [transposeMat, List.mem_map] at hrow
    obtain ⟨j, _, hj⟩ := hrow
    rw [← hj]
    simp [hlen]

theorem length_matmul (a b : Mat) : (matmul a b).length = a.length := by
  simp [matmul]

theorem mem_matmul_length {a b : Mat} {r : Vec} (h : r ∈ matmul a b) :
    r.length = (b.headD []).length := by
  simp only [matmul, List.mem_map] at h
  obtain ⟨row, _, hrow⟩ := h
  rw [← hrow]
  simp [length_transposeMat]

theorem zipWith_add_zero_mul (l e2 : Vec) (h : l.length ≤ e2.length) :
    List.zipWith (fun a b => a + b) l (e2.map (fun em => 0 * em)) = l := by
  induction l generalizing e2 with
  | nil => simp
  | cons a t ih =>
    cases e2 with
    | nil => simp at h
    | cons b e2t =>
      simp only [List.map_cons, List.zipWith_cons_cons]
      rw [zero_mul, add_zero, ih e2t (by simpa using h)]

theorem zipWith_add_zero_block (mn : Mat) (ern : Vec) (Q : ℕ)
    (hQ : mn.length ≤ Q) (hM : ∀ r ∈ mn, r.length ≤ ern.length) :
    List.zipWith (List.zipWith (fun a b => a + b)) mn
      ((List.replicate Q (0 : ℤ)).map (fun bq => ern.map (fun em => bq * em))) = mn := by
  induction mn generalizing Q with
  | nil => simp
  | cons r rs ih =>
    cases Q with
    | zero => simp at hQ
    | succ q =>
      simp only [List.replicate_succ, List.map_cons, List.zipWith_cons_cons]
      rw [zipWith_add_zero_mul r ern (hM r (List.mem_cons_self r rs))]
      rw [ih q (by simpa using hQ) (fun rr hrr => hM rr (List.mem_cons_of_mem r hrr))]

theorem addT3_bScale_zero (w : T3) (e : Mat) (Q M : ℕ)
    (hlen : w.length ≤ e.length)
    (hw : ∀ mn ∈ w, mn.length ≤ Q ∧ ∀ r ∈ mn, r.length ≤ M)
    (he : ∀ row ∈ e, M ≤ row.length) :
    addT3 w (bScale (List.replicate Q 0) e) = w := by
  unfold addT3 bScale
  induction w generalizing e with
  | nil => simp
  | cons mn ws ih =>
    cases e with
    | nil => simp at hlen
    | cons erow es =>
      simp only [List.map_cons, List.zipWith_cons_cons]
      have hmn := hw mn (List.mem_cons_self mn ws)
      rw [zipWith_add_zero_block mn erow Q hmn.1
        (fun r hr => le_trans (hmn.2 r hr) (he erow (List.mem_cons_self erow es)))]
      rw [ih es (by simpa using hlen)
        (fun m2 hm2 => hw m2 (List.mem_cons_of_mem mn hm2))
        (fun row hrow => he row (List.mem_cons_of_mem erow hrow))]

theorem getD_map_mul (c0 : ℤ) (erow : Vec) (j : ℕ) :
    (erow.map (fun em => c0 * em)).getD j 0 = c0 * erow.getD j 0 := by
  induction erow generalizing j with
  | nil => simp
  | cons a t ih =>
    cases j with
    | zero => simp
    | succ j => simpa using ih j

theorem outer_row_entry (crow erow : Vec) (q j : ℕ) :
    ((crow.map (fun cq => erow.map (fun em => cq * em))).getD q []).getD j 0
      = crow.getD q 0 * erow.getD j 0 := by
  induction crow generalizing q with
  | nil => simp
  | cons a t ih =>
    cases q with
    | zero => simpa using getD_map_mul a erow j
    | succ q => simpa using ih q

theorem outer_entry (cm e : Mat) (i q j : ℕ) :
    (((outerRows cm e).getD i []).getD q []).getD j 0
      = (cm.getD i []).getD q 0 * (e.getD i []).getD j 0 := by
  unfold outerRows
  induction cm generalizing e i with
  | nil => simp
  | cons crow cs ih =>
    cases e with
    | nil => simp [mul_zero]
    | cons erow es =>
      cases i with
      | zero => simpa using outer_row_entry crow erow q j
      | succ i => simpa using ih es i

theorem optObjTy_some (o : Obj) : optObjTy (some o) = objTy o := rfl

theorem optObjTy_none : optObjTy none = Ty.tNone := rfl

theorem optFeatTy_none : optFeatTy none = Ty.tNone := rfl

theorem optFeatTy_cases (f1 : Option Feat) :
    optFeatTy f1 = .tInducingPoints ∨ optFeatTy f1 = .tNone := by
  cases f1 with
  | none => exact Or.inr rfl
  | some ft => cases ft with | inducingPoints Z => exact Or.inl rfl

theorem resolve_diag (a b c d : Ty)
    (hb : b = .tInducingPoints ∨ b = .tNone) (hd : d = .tInducingPoints ∨ d = .tNone) :
    resolve ⟨.tDiagonalGaussian, a, b, c, d⟩ = .ok .hDiagConv := by
  rcases hb with rfl | rfl <;> rcases hd with rfl | rfl <;> revert a c <;> decide

theorem resolve_markov_opOne (a b : Ty) (hb : b = .tInducingPoints ∨ b = .tNone) :
    resolve ⟨.tMarkovGaussian, a, b, .tNone, .tNone⟩ = .ok .hMarkovConv := by
  rcases hb with rfl | rfl <;> revert a <;> decide

theorem resolve_markov_opTwo (b c d : Ty)
    (hb : b = .tInducingPoints ∨ b = .tNone) (hd : d = .tInducingPoints ∨ d = .tNone) :
    resolve ⟨.tMarkovGaussian, .tNone, b, c, d⟩ = .ok .hMarkovConv := by
  rcases hb with rfl | rfl <;> rcases hd with rfl | rfl <;> revert c <;> decide

/-- C1 counterexample: take a MarkovGaussian whose mean has 3 rows, so in
the claim's terms N + 1 = 3 and N = 2.  The claim says the operand1-only
call equals the plain-Gaussian expectation on the mean and same-time
covariance block restricted to steps 0..N-2, that is to the first
N-1 = 1 rows (List.take 1); the code instead keeps the first N = 2 rows
(it drops only the last), and the two results differ. -/
theorem markov_slice_claim_counterexample :
    expectationE probeLeaves 5
        (.markovGaussian [[1], [2], [3]] [[[[1]], [[1]], [[1]]], [[[1]], [[1]], [[1]]]])
        (some (.kern .linearK)) (some (.inducingPoints [[1]])) none none none
      ≠ expectationE probeLeaves 5
        (.gaussian (([[1], [2], [3]] : Mat).take 1) (([[[1]], [[1]], [[1]]] : T3).take 1))
        (some (.kern .linearK)) (some (.inducingPoints [[1]])) none none none := by
  decide

/-- C1 (amended): for a MarkovGaussian with an (N+1)-step mean and a
covariance whose first slot holds the same-time-step block, the conversion
handler with only operand1 supplied delegates to the plain-Gaussian
expectation on the mean and same-time covariance block restricted to
steps 0..N-1 (all rows but the last), and with only operand2 supplied to
the restriction to steps 1..N (all rows but the first). -/
theorem markov_conversion_slices (lv : Leaves) (f : ℕ) (mu : Mat) (cov : List T3)
    (o1 o2 : Obj) (f1 f2 : Option Feat) (n : Option ℕ) :
    expectationE lv (f + 1) (.markovGaussian mu cov) (some o1) f1 none none n
      = expectationE lv f (.gaussian mu.dropLast ((cov.headD []).dropLast))
          (some o1) f1 none none n
    ∧ expectationE lv (f + 1) (.markovGaussian mu cov) none f1 (some o2) f2 n
      = expectationE lv f (.gaussian mu.tail ((cov.headD []).tail))
          (some o2) f2 none none n := by
  constructor
  · simp only [expectationE, tupOf, Dist.ty, optObjTy_some, optObjTy_none, optFeatTy_none]
    rw [resolve_markov_opOne (objTy o1) (optFeatTy f1) (optFeatTy_cases f1)]
    rfl
  · simp only [expectationE, tupOf, Dist.ty, optObjTy_some, optObjTy_none, optFeatTy_none]
    rw [resolve_markov_opTwo (optFeatTy f1) (objTy o2) (optFeatTy f2)
      (optFeatTy_cases f1) (optFeatTy_cases f2)]
    rfl

/-- C2: for a Gaussian input, an Identity mean with no feature and a
generic kernel (no kernel-specific rule registered) with inducing points,
the facade always answers NotImplementedError: the recursion guard is
selected over the Linear-mean handler at every fuel level, so the call
neither recurses indefinitely nor returns a value. -/
theorem identity_generic_kernel_guard (lv : Leaves) (f : ℕ) (mu : Mat) (cov : T3)
    (Z : Mat) (d : ℕ) (n : Option ℕ) :
    expectationE lv (f + 1) (.gaussian mu cov) (some (.mean (.identity d))) none
      (some (.kern .genericK)) (some (.inducingPoints Z)) n = .error .notImplemented := rfl

/-- C3: for every DiagonalGaussian with mean mu and diagonal variances v,
and every operand/feature combination (features inducing points or none),
the facade on the DiagonalGaussian delegates exactly to the facade on the
full Gaussian built from the same mean and the per-batch diagonal
embedding of v. -/
theorem diag_to_full_delegation (lv : Leaves) (f : ℕ) (mu v : Mat)
    (o1 : Option Obj) (f1 : Option Feat) (o2 : Option Obj) (f2 : Option Feat)
    (n : Option ℕ) :
    expectationE lv (f + 1) (.diagGaussian mu v) o1 f1 o2 f2 n
      = expectationE lv f (.gaussian mu (v.map diagEmbed)) o1 f1 o2 f2 n := by
  simp only [expectationE, tupOf, Dist.ty]
  rw [resolve_diag (optObjTy o1) (optFeatTy f1) (optObjTy o2) (optFeatTy f2)
    (optFeatTy_cases f1) (optFeatTy_cases f2)]
  rfl

/-- C4: for a Gaussian input, a Linear mean with weights A and offset b and
any kernel with inducing points, the handler result is the batched product
of the transpose of A with the extended expectation obtained through an
auxiliary Identity mean delegation, plus b times the plain kernel
expectation; in particular with b the zero vector the result is exactly
the contraction with the transpose of A. -/
theorem linear_mean_decomposition (lv : Leaves) (f : ℕ) (mu : Mat) (cov : T3)
    (A : Mat) (b : Vec) (k : Kern) (Z : Mat) (n : Option ℕ) (x : T3) (e : Mat)
    (N D M Q : ℕ)
    (hx : expectationE lv f (.gaussian mu cov)
        (some (.mean (.identity (mu.headD []).length))) none
        (some (.kern k)) (some (.inducingPoints Z)) n = .ok (.r3 x))
    (he : expectationE lv f (.gaussian mu cov)
        (some (.kern k)) (some (.inducingPoints Z)) none none n = .ok (.r2 e))
    (hxs : shape3b x N D M = true) (hes : shape2b e N M = true)
    (hAs : shape2b A D Q = true) (hD : 0 < D) :
    expectationE lv (f + 1) (.gaussian mu cov) (some (.mean (.linear A b))) none
        (some (.kern k)) (some (.inducingPoints Z)) n
      = .ok (.r3 (addT3 (x.map (fun xn => matmul (transposeMat A) xn)) (bScale b e)))
    ∧ (b = List.replicate Q 0 →
        expectationE lv (f + 1) (.gaussian mu cov) (some (.mean (.linear A b))) none
            (some (.kern k)) (some (.inducingPoints Z)) n
          = .ok (.r3 (x.map (fun xn => matmul (transposeMat A) xn)))) := by
  have hr : resolve (tupOf (.gaussian mu cov) (some (.mean (.linear A b))) none
      (some (.kern k)) (some (.inducingPoints Z))) = .ok .hLinearMeanKern := by
    cases k <;> rfl
  have hmain : expectationE lv (f + 1) (.gaussian mu cov)
      (some (.mean (.linear A b))) none (some (.kern k)) (some (.inducingPoints Z)) n
      = .ok (.r3 (addT3 (x.map (fun xn => matmul (transposeMat A) xn)) (bScale b e))) := by
    simp only [expectationE]
    rw [hr]
    simp only [runHandler, Dist.mu]
    rw [hx, he]
  refine ⟨hmain, fun hb => ?_⟩
  subst hb
  rw [hmain]
  have hxx := shape3b_iff.mp hxs
  have hee := shape2b_iff.mp hes
  have hz : addT3 (x.map (fun xn => matmul (transposeMat A) xn))
      (bScale (List.replicate Q 0) e) = x.map (fun xn => matmul (transposeMat A) xn) := by
    apply addT3_bScale_zero _ _ Q M
    · rw [List.length_map, hxx.1, hee.1]
    · intro mn hmn
      rw [List.mem_map] at hmn
      obtain ⟨xn, hxn, rfl⟩ := hmn
      constructor
      · rw [length_matmul, length_transposeMat, headD_length_of_shape2b hAs hD]
      · intro r hr2
        rw [mem_matmul_length hr2,
          headD_length_of_shape2b (hxx.2 xn hxn) hD]
    · intro row hrow
      rw [hee.2 row hrow]
  rw [hz]

/-- C4 witness: the decomposition evaluated at a concrete Gaussian with
identity weights, zero offset and the probe leaf formulas. -/
theorem linear_mean_decomposition_witness :
    (expectationE probeLeaves 3 (.gaussian [[1, 2]] [[[1, 0], [0, 1]]])
        (some (.mean (.identity (([[1, 2]] : Mat).headD []).length))) none
        (some (.kern .linearK)) (some (.inducingPoints [[1, 0]])) none
      = .ok (.r3 [[[1], [2]]]))
    ∧ (expectationE probeLeaves 3 (.gaussian [[1, 2]] [[[1, 0], [0, 1]]])
        (some (.kern .linearK)) (some (.inducingPoints [[1, 0]])) none none none
      = .ok (.r2 [[1]]))
    ∧ shape3b [[[1], [2]]] 1 2 1 = true
    ∧ shape2b [[1]] 1 1 = true
    ∧ shape2b [[1, 0], [0, 1]] 2 2 = true
    ∧ 0 < 2
    ∧ expectationE probeLeaves 4 (.gaussian [[1, 2]] [[[1, 0], [0, 1]]])
        (some (.mean (.linear [[1, 0], [0, 1]] (List.replicate 2 0)))) none
        (some (.kern .linearK)) (some (.inducingPoints [[1, 0]])) none
      = .ok (.r3 (([[[1], [2]]] : T3).map (fun xn => matmul (transposeMat [[1, 0], [0, 1]]) xn))) :=
  ⟨by decide, by decide, by decide, by decide, by decide, by decide,
   (linear_mean_decomposition probeLeaves 3 [[1, 2]] [[[1, 0], [0, 1]]]
      [[1, 0], [0, 1]] (List.replicate 2 0) .linearK [[1, 0]] none [[[1], [2]]] [[1]]
      1 2 1 2 (by decide) (by decide) (by decide) (by decide) (by decide) (by decide)).2 rfl⟩

/-- C5: the handler for (Identity mean, Linear kernel with inducing
points) returns exactly the adjoint of the (Linear kernel, Identity
mean)-ordered expectation obtained by delegating to the facade with the
mean and kernel operand order swapped, for Gaussian as well as
MarkovGaussian inputs. -/
theorem identity_linear_adjoint_pair (lv : Leaves) (f : ℕ) (mu mmu : Mat) (cov : T3)
    (mcov : List T3) (Z W : Mat) (dg dm : ℕ) (n m : Option ℕ) :
    (expectationE lv (f + 1) (.gaussian mu cov) (some (.mean (.identity dg))) none
        (some (.kern .linearK)) (some (.inducingPoints Z)) n
      = Except.map adjointT (expectationE lv f (.gaussian mu cov)
          (some (.kern .linearK)) (some (.inducingPoints Z))
          (some (.mean (.identity dg))) none none))
    ∧ (expectationE lv (f + 1) (.markovGaussian mmu mcov) (some (.mean (.identity dm))) none
        (some (.kern .linearK)) (some (.inducingPoints W)) m
      = Except.map adjointT (expectationE lv f (.markovGaussian mmu mcov)
          (some (.kern .linearK)) (some (.inducingPoints W))
          (some (.mean (.identity dm))) none none)) := by
  constructor
  · have step : expectationE lv (f + 1) (.gaussian mu cov) (some (.mean (.identity dg))) none
        (some (.kern .linearK)) (some (.inducingPoints Z)) n
        = (match expectationE lv f (.gaussian mu cov) (some (.kern .linearK))
            (some (.inducingPoints Z)) (some (.mean (.identity dg))) none none with
           | .error e => .error e
           | .ok t => .ok (adjointT t)) := rfl
    rw [step]
    cases expectationE lv f (.gaussian mu cov) (some (.kern .linearK))
      (some (.inducingPoints Z)) (some (.mean (.identity dg))) none none <;> rfl
  · have step : expectationE lv (f + 1) (.markovGaussian mmu mcov)
        (some (.mean (.identity dm))) none
        (some (.kern .linearK)) (some (.inducingPoints W)) m
        = (match expectationE lv f (.markovGaussian mmu mcov) (some (.kern .linearK))
            (some (.inducingPoints W)) (some (.mean (.identity dm))) none none with
           | .error e => .error e
           | .ok t => .ok (adjointT t)) := rfl
    rw [step]
    cases expectationE lv f (.markovGaussian mmu mcov) (some (.kern .linearK))
      (some (.inducingPoints W)) (some (.mean (.identity dm))) none none <;> rfl

/-- C6: whenever resolution selects the (kernel, feature, mean) transpose
handler, its result is the adjoint of the facade's (mean, (kernel,
feature)) expectation with nghp forwarded unchanged, and when the inner
result is a rectangular N-by-Q-by-M tensor the result has shape
N-by-M-by-Q. -/
theorem kern_mean_transpose_adjoint (lv : Leaves) (f : ℕ) (p : Dist) (k : Kern)
    (ft : Feat) (m : MeanF) (n : Option ℕ) (t : T3) (N M Q : ℕ)
    (hres : resolve (tupOf p (some (.kern k)) (some ft) (some (.mean m)) none)
      = .ok .hKernMeanTranspose)
    (hin : expectationE lv f p (some (.mean m)) none (some (.kern k)) (some ft) n
      = .ok (.r3 t))
    (hsh : shape3b t N Q M = true) (hQ : 0 < Q) :
    expectationE lv (f + 1) p (some (.kern k)) (some ft) (some (.mean m)) none n
      = .ok (.r3 (t.map transposeMat))
    ∧ shape3b (t.map transposeMat) N M Q = true := by
  constructor
  · simp only [expectationE]
    rw [hres]
    simp only [runHandler]
    rw [hin]
    rfl
  · have hsh2 := shape3b_iff.mp hsh
    rw [shape3b_iff]
    constructor
    · rw [List.length_map, hsh2.1]
    · intro m2 hm2
      rw [List.mem_map] at hm2
      obtain ⟨m0, hm0, rfl⟩ := hm2
      exact shape2b_transposeMat m0 Q M hQ (hsh2.2 m0 hm0)

/-- C6 witness: the transpose identity evaluated at a concrete Gaussian, a
Constant mean and the Linear kernel with the probe leaf formulas. -/
theorem kern_mean_transpose_adjoint_witness :
    (resolve (tupOf (.gaussian [[1, 2]] [[[1, 0], [0, 1]]])
        (some (.kern .linearK)) (some (.inducingPoints [[1, 0]]))
        (some (.mean (.constant [5]))) none) = .ok .hKernMeanTranspose)
    ∧ (expectationE probeLeaves 2 (.gaussian [[1, 2]] [[[1, 0], [0, 1]]])
        (some (.mean (.constant [5]))) none
        (some (.kern .linearK)) (some (.inducingPoints [[1, 0]])) none
      = .ok (.r3 [[[5]]]))
    ∧ shape3b [[[5]]] 1 1 1 = true
    ∧ 0 < 1
    ∧ (expectationE probeLeaves 3 (.gaussian [[1, 2]] [[[1, 0], [0, 1]]])
          (some (.kern .linearK)) (some (.inducingPoints [[1, 0]]))
          (some (.mean (.constant [5]))) none none
        = .ok (.r3 (([[[5]]] : T3).map transposeMat))
      ∧ shape3b (([[[5]]] : T3).map transposeMat) 1 1 1 = true) :=
  ⟨by decide, by decide, by decide, by decide,
   kern_mean_transpose_adjoint probeLeaves 2 (.gaussian [[1, 2]] [[[1, 0], [0, 1]]])
     .linearK (.inducingPoints [[1, 0]]) (.constant [5]) none [[[5]]] 1 1 1
     (by decide) (by decide) (by decide) (by decide)⟩

/-- C7: for a Gaussian input, a Constant mean and any kernel with inducing
points, the handler evaluates the constant matrix c tiled over the batch
from the distribution mean and the plain kernel expectation e, and returns
the per-row outer product whose entries are c[n][q] * e[n][j]. -/
theorem constant_mean_outer_product (lv : Leaves) (f : ℕ) (mu : Mat) (cov : T3)
    (c : Vec) (k : Kern) (Z : Mat) (n : Option ℕ) (e : Mat)
    (he : expectationE lv f (.gaussian mu cov)
        (some (.kern k)) (some (.inducingPoints Z)) none none n = .ok (.r2 e)) :
    expectationE lv (f + 1) (.gaussian mu cov) (some (.mean (.constant c))) none
        (some (.kern k)) (some (.inducingPoints Z)) n
      = .ok (.r3 (outerRows (mu.map (fun _ => c)) e))
    ∧ ∀ i q j, (((outerRows (mu.map (fun _ => c)) e).getD i []).getD q []).getD j 0
        = ((mu.map (fun _ => c)).getD i []).getD q 0 * (e.getD i []).getD j 0 := by
  have hr : resolve (tupOf (.gaussian mu cov) (some (.mean (.constant c))) none
      (some (.kern k)) (some (.inducingPoints Z))) = .ok .hConstKern := by
    cases k <;> rfl
  constructor
  · simp only [expectationE]
    rw [hr]
    simp only [runHandler, Dist.mu]
    rw [he]
  · intro i q j
    exact outer_entry (mu.map (fun _ => c)) e i q j

/-- C7 witness: the outer-product rule evaluated at a concrete Gaussian
with constant value 5 and the probe leaf formulas. -/
theorem constant_mean_outer_product_witness :
    (expectationE probeLeaves 1 (.gaussian [[1, 2]] [[[1, 0], [0, 1]]])
        (some (.kern .linearK)) (some (.inducingPoints [[1, 0]])) none none none
      = .ok (.r2 [[1]]))
    ∧ (expectationE probeLeaves 2 (.gaussian [[1, 2]] [[[1, 0], [0, 1]]])
          (some (.mean (.constant [5]))) none
          (some (.kern .linearK)) (some (.inducingPoints [[1, 0]])) none
        = .ok (.r3 (outerRows ((([[1, 2]] : Mat)).map (fun _ => [5])) [[1]]))
      ∧ ∀ i q j,
          (((outerRows ((([[1, 2]] : Mat)).map (fun _ => [5])) [[1]]).getD i []).getD q []).getD j 0
            = ((([[1, 2]] : Mat).map (fun _ => ([5] : Vec))).getD i []).getD q 0
              * ((([[1]] : Mat)).getD i []).getD j 0) :=
  ⟨by decide,
   constant_mean_outer_product probeLeaves 1 [[1, 2]] [[[1, 0], [0, 1]]] [5]
     .linearK [[1, 0]] none [[1]] (by decide)⟩

/-- C8: when resolution selects the MarkovGaussian conversion handler with
both operand objects supplied, the handler passes the MarkovGaussian and
both (object, feature) pairs through to the facade completely unchanged,
performing no slicing or conversion. -/
theorem markov_both_operands_passthrough (lv : Leaves) (f : ℕ) (mu : Mat)
    (cov : List T3) (o1 o2 : Obj) (f1 f2 : Option Feat) (n : Option ℕ)
    (hres : resolve (tupOf (.markovGaussian mu cov) (some o1) f1 (some o2) f2)
      = .ok .hMarkovConv) :
    expectationE lv (f + 1) (.markovGaussian mu cov) (some o1) f1 (some o2) f2 n
      = expectationE lv f (.markovGaussian mu cov) (some o1) f1 (some o2) f2 n := by
  simp only [expectationE]
  rw [hres]
  rfl

/-- C8 witness: the pass-through evaluated at a concrete MarkovGaussian
with two generic-kernel operands; at every fuel level the handler hands
the unchanged call back to the facade (here down to fuel exhaustion,
making the recursion risk noted in the spec concrete). -/
theorem markov_both_operands_passthrough_witness :
    (resolve (tupOf (.markovGaussian [[1], [2]] [[[[1]], [[1]]], [[[1]], [[1]]]])
        (some (.kern .genericK)) (some (.inducingPoints [[1]]))
        (some (.kern .genericK)) (some (.inducingPoints [[1]]))) = .ok .hMarkovConv)
    ∧ expectationE probeLeaves 2 (.markovGaussian [[1], [2]] [[[[1]], [[1]]], [[[1]], [[1]]]])
        (some (.kern .genericK)) (some (.inducingPoints [[1]]))
        (some (.kern .genericK)) (some (.inducingPoints [[1]])) none
      = expectationE probeLeaves 1 (.markovGaussian [[1], [2]] [[[[1]], [[1]]], [[[1]], [[1]]]])
        (some (.kern .genericK)) (some (.inducingPoints [[1]]))
        (some (.kern .genericK)) (some (.inducingPoints [[1]])) none :=
  ⟨by decide,
   markov_both_operands_passthrough probeLeaves 1 [[1], [2]] [[[[1]], [[1]]], [[[1]], [[1]]]]
     (.kern .genericK) (.kern .genericK) (some (.inducingPoints [[1]]))
     (some (.inducingPoints [[1]])) none (by decide)⟩

/-- C9: every handler of the module is a pure function of the distribution,
the two (object, feature) operand pairs and nghp: invocations on equal
inputs (with the same delegation facade) return equal results, and inputs
are passed as immutable values. -/
theorem handlers_pure_functions (lv : Leaves)
    (delegate : Dist → Option Obj → Option Feat → Option Obj → Option Feat → Option ℕ → Res)
    (h : HId) (p p2 : Dist) (o1 o1b : Option Obj) (f1 f1b : Option Feat)
    (o2 o2b : Option Obj) (f2 f2b : Option Feat) (n n2 : Option ℕ)
    (hp : p = p2) (ho1 : o1 = o1b) (hf1 : f1 = f1b) (ho2 : o2 = o2b) (hf2 : f2 = f2b)
    (hn : n = n2) :
    runHandler lv delegate h p o1 f1 o2 f2 n
      = runHandler lv delegate h p2 o1b f1b o2b f2b n2 := by
  subst hp ho1 hf1 ho2 hf2 hn
  rfl

/-- C9 witness: determinism instantiated at the recursion-guard handler on
a concrete Gaussian. -/
theorem handlers_pure_functions_witness :
    (Dist.gaussian [[1]] [[[1]]] = Dist.gaussian [[1]] [[[1]]])
    ∧ runHandler probeLeaves (fun q a b c d m => expectationE probeLeaves 1 q a b c d m)
        .hIdentityGuard (.gaussian [[1]] [[[1]]]) none none none none none
      = runHandler probeLeaves (fun q a b c d m => expectationE probeLeaves 1 q a b c d m)
        .hIdentityGuard (.gaussian [[1]] [[[1]]]) none none none none none :=
  ⟨rfl,
   handlers_pure_functions probeLeaves
     (fun q a b c d m => expectationE probeLeaves 1 q a b c d m) .hIdentityGuard
     (.gaussian [[1]] [[[1]]]) (.gaussian [[1]] [[[1]]]) none none none none
     none none none none none none rfl rfl rfl rfl rfl rfl⟩

/-- C10: the handler registered for (Gaussian or MarkovGaussian, Identity
mean, none, Linear kernel, InducingPoints) does not forward nghp to its
delegated facade call, so its result is independent of nghp. -/
theorem exKxz_handler_nghp_independent (lv : Leaves) (f : ℕ) (mu mmu : Mat)
    (cov : T3) (mcov : List T3) (Z W : Mat) (dg dm : ℕ) (n1 n2 n3 n4 : Option ℕ) :
    (expectationE lv (f + 1) (.gaussian mu cov) (some (.mean (.identity dg))) none
        (some (.kern .linearK)) (some (.inducingPoints Z)) n1
      = expectationE lv (f + 1) (.gaussian mu cov) (some (.mean (.identity dg))) none
        (some (.kern .linearK)) (some (.inducingPoints Z)) n2)
    ∧ (expectationE lv (f + 1) (.markovGaussian mmu mcov) (some (.mean (.identity dm))) none
        (some (.kern .linearK)) (some (.inducingPoints W)) n3
      = expectationE lv (f + 1) (.markovGaussian mmu mcov) (some (.mean (.identity dm))) none
        (some (.kern .linearK)) (some (.inducingPoints W)) n4) :=
  ⟨rfl, rfl⟩

end GPF
